import Mathlib

/-!
Shallow embedding of the market-research multi-agent pipeline from
`agentai.py` and `utils.py`.

Modelling conventions:
* a Python `str` is a sequence of code points, modelled as `List Char`
  (named `Str` below); Python slicing `s[:n]` is `List.take`,
  `len` is `List.length`, `s.split('\n')` is `splitLines`,
  `s.strip()` is `pyStrip`;
* every external service (the three LLM agent invocations, the Kaggle
  API, the HuggingFace and GitHub HTTP searches) is an oracle collected
  in an `Env` record; a call that can raise is an `Except Str` value
  whose `error` payload is the exception message `str(e)`;
* a Python function that catches exceptions at its boundary is a total
  Lean function that pattern-matches on the oracle outcome;
* a Python dict access `d['k']` that can raise `KeyError` is modelled
  with `Option` fields and an `Except` reader.
-/

set_option maxHeartbeats 1000000
set_option maxRecDepth 100000

/-- Python `str` as a sequence of code points. -/
abbrev Str := List Char

/-- Embed a Lean string literal into the model. -/
def strOf (s : String) : Str := s.data

/-- Python `s.strip()` (whitespace at both ends removed). -/
def pyStrip (s : Str) : Str :=
  ((s.dropWhile Char.isWhitespace).reverse.dropWhile Char.isWhitespace).reverse

/-- Python `s.startswith(p)`. -/
def startsWithL : Str → Str → Bool
  | _, [] => true
  | [], _ :: _ => false
  | c :: s, d :: p => c == d && startsWithL s p

/-- Python `s.split('\n')`: split at every newline, never collapsing,
`"".split('\n') == [""]`. -/
def splitLines : Str → List Str
  | [] => [[]]
  | c :: s =>
    if c = '\n' then [] :: splitLines s
    else
      match splitLines s with
      | [] => [[c]]
      | l :: ls => (c :: l) :: ls

/-- Python `c in s` for a single character. -/
def containsChar (s : Str) (c : Char) : Bool :=
  s.any (fun d => d == c)

/-- Python `p in s` (substring containment). -/
def containsSub (s p : Str) : Bool :=
  (List.range (s.length + 1)).any (fun i => startsWithL (s.drop i) p)

/-- The marker appended by every `x[:C] + "..."` truncation site. -/
def ellipsis : Str := strOf "..."

/-- The truncation idiom `x[:C] + "..." if len(x) > C else x` used at every
capped hand-off in `agentai.py`. -/
def truncateEllipsis (s : Str) (cap : Nat) : Str :=
  if cap < s.length then s.take cap ++ ellipsis else s

/-- utils.py line 104: does a stripped line open a new use-case item?
`line and (line.startswith('-') or line.startswith('*') or
line.startswith('1.') or line.startswith('2.') or ':' in line)`. -/
def startsItem (line : Str) : Bool :=
  !line.isEmpty &&
    (startsWithL line (strOf "-") || startsWithL line (strOf "*") ||
     startsWithL line (strOf "1.") || startsWithL line (strOf "2.") ||
     containsChar line ':')

/-- utils.py lines 98-112: the line loop of `resource_agent_kaggle`,
accumulating `current_case` and flushing into `use_case_list`. -/
def extractLoop : List Str → Str → List Str → List Str
  | [], current, acc =>
    if current.isEmpty then acc else acc ++ [pyStrip current]
  | l :: ls, current, acc =>
    let line := pyStrip l
    if startsItem line then
      extractLoop ls line (if current.isEmpty then acc else acc ++ [pyStrip current])
    else if line.isEmpty then
      extractLoop ls current acc
    else
      extractLoop ls (current ++ strOf " " ++ line) acc

/-- utils.py lines 97-112: parse freeform use-case text into items. -/
def extract_use_cases (use_cases : Str) : List Str :=
  extractLoop (splitLines use_cases) [] []

/-- utils.py lines 115-116: fall back to a single synthetic item when
nothing was parsed. -/
def use_case_items (use_cases company_industry : Str) : List Str :=
  let l := extract_use_cases use_cases
  if l.isEmpty then [strOf "AI applications in " ++ company_industry] else l

/-! ## Data model: resource records, catalog data, and the environment -/

/-- A resource record (a Python dict).  Every field is optional so that a
missing key is distinguishable from a present one: the formatter's
unguarded subscripts `resource['url']` / `['title']` / `['source']`
raise `KeyError` exactly on a missing key. -/
structure Resource where
  title : Option Str
  url : Option Str
  source : Option Str
  description : Option Str
  downloads : Option Int
  stars : Option Int
  likes : Option Int
  ref : Option Str
  language : Option Str
deriving DecidableEq

/-- Builder for the ubiquitous `{title, url, source, description}` shape. -/
def mkResource (t u s d : Str) : Resource :=
  { title := some t, url := some u, source := some s, description := some d,
    downloads := none, stars := none, likes := none, ref := none, language := none }

/-- A dataset as returned by the Kaggle SDK (`dataset.title`, `dataset.ref`). -/
structure KDataset where
  title : Str
  ref : Str

/-- A dataset JSON object from the HuggingFace API; `none` models an
absent key, recovered by Python's `dict.get(key, default)`. -/
structure HFDataset where
  id : Option Str
  description : Option Str
  downloads : Option Int
  likes : Option Int

/-- A repository JSON object from the GitHub search API. -/
structure GHRepo where
  name : Option Str
  html_url : Option Str
  description : Option Str
  stargazers_count : Option Int
  language : Option Str

/-- Oracle for one `create_react_agent(...).invoke(state)` call: either the
raised exception's message, or the contents of the `AIMessage`s found in
`response["messages"]`. -/
abbrev LLMCall := Str → Except Str (List Str)

/-- All external collaborators of the pipeline, plus two oracles
(`kaggleCrash`, `resourceCrash`) standing for an unexpected exception
raised inside the `try` body of `resource_agent_kaggle` (utils.py 96-135)
resp. `resource_agent` (agentai.py 102-118) and caught by its `except`. -/
structure Env where
  researchLLM : LLMCall
  useCaseLLM : LLMCall
  proposalLLM : LLMCall
  kaggleApi : Option (Str → Except Str (List KDataset))
  hfSearch : Str → Nat → Except Str (List HFDataset)
  ghSearch : Str → Nat → Except Str (List GHRepo)
  kaggleCrash : Option Str
  resourceCrash : Option Str

/-! ## Catalog searches (utils.py) -/

/-- utils.py lines 71-89: synthetic records when the Kaggle API is not
available, sliced by `[:max_results]`. -/
def search_kaggle_fallback (query : Str) (max_results : Nat) : List Resource :=
  ([mkResource (query ++ strOf " Dataset 1")
      (strOf "https://www.kaggle.com/datasets/example1")
      (strOf "Kaggle (Fallback)")
      (strOf "Example dataset for " ++ query ++ strOf " - use real Kaggle API for actual results"),
    mkResource (query ++ strOf " Dataset 2")
      (strOf "https://www.kaggle.com/datasets/example2")
      (strOf "Kaggle (Fallback)")
      (strOf "Example dataset for " ++ query ++ strOf " - install kaggle.json for real results")]).take max_results

/-- utils.py lines 45-69: Kaggle search.  `setup_kaggle_api` (lines 10-43)
catches its own exceptions and returns `None` when credentials are absent
or setup fails, hence the `Option` oracle; a `dataset_list` failure routes
to the fallback via the `except` at line 67. -/
def search_kaggle_datasets (env : Env) (query : Str) (max_results : Nat) : List Resource :=
  match env.kaggleApi with
  | none => search_kaggle_fallback query max_results
  | some api =>
    match api query with
    | .error _ => search_kaggle_fallback query max_results
    | .ok datasets =>
      (datasets.take max_results).map (fun d =>
        { title := some d.title,
          url := some (strOf "https://www.kaggle.com/datasets/" ++ d.ref),
          ref := some d.ref,
          source := some (strOf "Kaggle"),
          description := some (strOf "Dataset for " ++ query),
          downloads := none, stars := none, likes := none, language := none })

/-- utils.py lines 125-130: per-use-case sentinel stored when a query
returns no datasets. -/
def noDatasetSentinel : Resource :=
  mkResource (strOf "No specific dataset found")
    (strOf "https://www.kaggle.com/datasets")
    (strOf "Kaggle")
    (strOf "Search for relevant datasets on Kaggle")

/-- utils.py lines 138-143: the record under the `"Error"` key produced by
the `except` of `resource_agent_kaggle`. -/
def kaggleErrorRecord (e : Str) : Resource :=
  { title := some (strOf "Kaggle API Error: " ++ e),
    url := some [],
    source := some (strOf "Error"),
    description := some (strOf "Failed to fetch datasets from Kaggle. Make sure to set up Kaggle API credentials."),
    downloads := none, stars := none, likes := none, ref := none, language := none }

/-- Python dict assignment `m[k] = v` on an insertion-ordered dict:
update in place when the key exists, otherwise append. -/
def dictInsert {α : Type} (m : List (Str × α)) (k : Str) (v : α) : List (Str × α) :=
  if m.any (fun p => p.1 == k) then
    m.map (fun p => if p.1 == k then (k, v) else p)
  else m ++ [(k, v)]

/-- utils.py lines 91-144: map each of the first two extracted use cases to
the datasets found for `f"{case} {company_industry}"`, or to the sentinel. -/
def resource_agent_kaggle (env : Env) (use_cases company_industry : Str) (max_results : Nat) :
    List (Str × List Resource) :=
  match env.kaggleCrash with
  | some e => [(strOf "Error", [kaggleErrorRecord e])]
  | none =>
    let items := use_case_items use_cases company_industry
    (items.take 2).foldl
      (fun m case =>
        let query := case ++ strOf " " ++ company_industry
        let datasets := search_kaggle_datasets env query max_results
        dictInsert m case (if datasets.isEmpty then [noDatasetSentinel] else datasets))
      []

/-- utils.py lines 146-167: HuggingFace search; any failure yields `[]`.
The response list is iterated whole (the limit is applied server side). -/
def search_huggingface_datasets (env : Env) (query : Str) (max_results : Nat) : List Resource :=
  match env.hfSearch query max_results with
  | .error _ => []
  | .ok datasets =>
    datasets.map (fun d =>
      { title := some (d.id.getD (strOf "Unknown")),
        url := some (strOf "https://huggingface.co/datasets/" ++ d.id.getD []),
        source := some (strOf "HuggingFace"),
        description := some ((d.description.getD (strOf "No description available")).take 200 ++ strOf "..."),
        downloads := some (d.downloads.getD 0),
        likes := some (d.likes.getD 0),
        stars := none, ref := none, language := none })

/-- utils.py lines 169-195: GitHub search; any failure yields `[]`;
`data.get('items', [])` is sliced by `[:max_results]`. -/
def search_github_repos (env : Env) (query : Str) (max_results : Nat) : List Resource :=
  match env.ghSearch query max_results with
  | .error _ => []
  | .ok items =>
    (items.take max_results).map (fun repo =>
      { title := some (repo.name.getD (strOf "Unknown")),
        url := some (repo.html_url.getD []),
        source := some (strOf "GitHub"),
        description := some (repo.description.getD (strOf "No description available")),
        stars := some (repo.stargazers_count.getD 0),
        language := some (repo.language.getD (strOf "Unknown")),
        downloads := none, likes := none, ref := none })

/-! ## Formatter (utils.py lines 197-222) -/

/-- Python `resource[k]`: the value, or a `KeyError` carrying `k`. -/
def getKey {α : Type} (v : Option α) (k : String) : Except Str α :=
  match v with
  | some x => .ok x
  | none => .error (strOf k)

/-- utils.py lines 208-220: the bullet block for one record.  `'url'`,
`'title'` and `'source'` are read unguarded; `'description'`,
`'downloads'` and `'stars'` are membership-guarded. -/
def formatResource (r : Resource) : Except Str Str := do
  let url ← getKey r.url "url"
  let title ← getKey r.title "title"
  let source ← getKey r.source "source"
  let head :=
    if url.isEmpty then strOf "- **" ++ title ++ strOf "** (" ++ source ++ strOf ")\n"
    else strOf "- **[" ++ title ++ strOf "](" ++ url ++ strOf ")** (" ++ source ++ strOf ")\n"
  let d := match r.description with
    | some txt => strOf "  - " ++ txt ++ strOf "\n"
    | none => []
  let dl := match r.downloads with
    | some n => strOf "  - Downloads: " ++ strOf (toString n) ++ strOf "\n"
    | none => []
  let st := match r.stars with
    | some n => strOf "  - Stars: " ++ strOf (toString n) ++ strOf "\n"
    | none => []
  return head ++ d ++ dl ++ st ++ strOf "\n"

/-- utils.py line 204: `not resources or (len(resources) == 1 and
"Error" in resources[0].get('title', ''))`. -/
def placeholderGuard : List Resource → Bool
  | [] => true
  | [r] => containsSub (r.title.getD []) (strOf "Error")
  | _ :: _ :: _ => false

/-- The `for resource in resources` loop of the formatter. -/
def formatResourceList : List Resource → Except Str Str
  | [] => .ok []
  | r :: rs => do
    let a ← formatResource r
    let b ← formatResourceList rs
    return a ++ b

/-- One `for use_case, resources in resource_map.items()` iteration. -/
def formatEntry (use_case : Str) (resources : List Resource) : Except Str Str :=
  let heading := strOf "## Use Case: " ++ use_case ++ strOf "\n\n"
  if placeholderGuard resources then
    .ok (heading ++ strOf "No specific resources found for this use case.\n\n")
  else do
    let b ← formatResourceList resources
    return heading ++ b

/-- The full entry loop of the formatter. -/
def formatEntryList : List (Str × List Resource) → Except Str Str
  | [] => .ok []
  | (k, rs) :: t => do
    let a ← formatEntry k rs
    let b ← formatEntryList t
    return a ++ b

/-- utils.py lines 197-222: render the resource map as markdown. -/
def format_resources_markdown (m : List (Str × List Resource)) : Except Str Str := do
  let b ← formatEntryList m
  return strOf "# AI Implementation Resources\n\n" ++ b

/-! ## Pipeline stages (agentai.py) -/

/-- agentai.py line 59. -/
def researchQuery (company_or_industry : Str) : Str :=
  strOf "Research " ++ company_or_industry ++ strOf " industry overview and key facts"

/-- agentai.py lines 56-75: the research stage.  Line 72 is the Python
conditional `msgs[-1][:500] + "..." if msgs and len(msgs[-1]) > 500 else
msgs[-1] if msgs else "No research results found"`. -/
def research_agent (env : Env) (company_or_industry : Str) : Str :=
  match env.researchLLM (researchQuery company_or_industry) with
  | .error e => strOf "Research error: " ++ e
  | .ok msgs =>
    match msgs.getLast? with
    | none => strOf "No research results found"
    | some m => truncateEllipsis m 500

/-- agentai.py lines 81-82: the use-case prompt with the research input
truncated at 300. -/
def useCaseQuery (research_data : Str) : Str :=
  strOf "Based on: " ++ truncateEllipsis research_data 300 ++ strOf "\n\nSuggest 2 AI use cases"

/-- agentai.py lines 77-98: the use-case stage, output capped at 400. -/
def use_case_agent (env : Env) (research_data : Str) : Str :=
  match env.useCaseLLM (useCaseQuery research_data) with
  | .error e => strOf "Use case error: " ++ e
  | .ok msgs =>
    match msgs.getLast? with
    | none => strOf "No use cases generated"
    | some m => truncateEllipsis m 400

/-- agentai.py lines 104-114: the resource map assembled by
`resource_agent` before rendering: the Kaggle map plus the two
secondary-catalog keys, each added only when its search found something. -/
def aggregateResources (env : Env) (use_cases company_industry : Str) :
    List (Str × List Resource) :=
  let kaggle := resource_agent_kaggle env use_cases company_industry 2
  let hf := search_huggingface_datasets env company_industry 2
  let gh := search_github_repos env company_industry 2
  let m1 := if hf.isEmpty then kaggle else dictInsert kaggle (strOf "HuggingFace Datasets") hf
  if gh.isEmpty then m1 else dictInsert m1 (strOf "GitHub Repositories") gh

/-- agentai.py lines 100-119: the resource stage. -/
def resource_agent (env : Env) (use_cases company_industry : Str) : Str :=
  match env.resourceCrash with
  | some e => strOf "Resource error: " ++ e
  | none =>
    match format_resources_markdown (aggregateResources env use_cases company_industry) with
    | .ok s => s
    | .error e => strOf "Resource error: " ++ e

/-- agentai.py lines 125-129: the proposal prompt with inputs truncated at
200 / 200 / 100. -/
def proposalQuery (research use_cases resources : Str) : Str :=
  strOf "Research: " ++ truncateEllipsis research 200 ++
  strOf "\nUse Cases: " ++ truncateEllipsis use_cases 200 ++
  strOf "\nResources: " ++ truncateEllipsis resources 100 ++
  strOf "\n\nCreate brief proposal"

/-- agentai.py lines 121-145: the proposal stage (output untruncated). -/
def proposal_agent (env : Env) (research use_cases resources : Str) : Str :=
  match env.proposalLLM (proposalQuery research use_cases resources) with
  | .error e => strOf "Proposal error: " ++ e
  | .ok msgs =>
    match msgs.getLast? with
    | none => strOf "No proposal generated"
    | some m => m

/-- The dict returned by `orchestrate_agents`, with its exactly four keys. -/
structure PipelineResult where
  research : Str
  use_cases : Str
  resources : Str
  proposal : Str
deriving DecidableEq

/-- agentai.py lines 147-166: the orchestrator, running the four stages
strictly in sequence. -/
def orchestrate_agents (env : Env) (company_or_industry : Str) : PipelineResult :=
  let research := research_agent env company_or_industry
  let use_cases := use_case_agent env research
  let resources := resource_agent env use_cases company_or_industry
  let proposal := proposal_agent env research use_cases resources
  { research := research, use_cases := use_cases,
    resources := resources, proposal := proposal }

/-! ## Supporting lemmas -/

theorem except_bind_ok {α β : Type} (a : α) (f : α → Except Str β) :
    (Except.ok a >>= f) = f a := rfl

theorem except_bind_error {α β : Type} (e : Str) (f : α → Except Str β) :
    (Except.error e >>= f : Except Str β) = .error e := rfl

theorem startsWithL_append_self (p r : Str) : startsWithL (p ++ r) p = true := by
  induction p with
  | nil => cases r <;> rfl
  | cons c cs ih => simp [startsWithL, ih]

theorem append_ne_nil_left {a : Str} (b : Str) (h : a ≠ []) : a ++ b ≠ [] := by
  intro hc
  rw [List.append_eq_nil] at hc
  exact h hc.1

theorem use_case_items_ne_nil (u ci : Str) : use_case_items u ci ≠ [] := by
  by_cases h : (extract_use_cases u).isEmpty = true
  · simp [use_case_items, h]
  · simp only [use_case_items, h, if_false, Bool.false_eq_true]
    simpa using h

/-! ## C2: the truncation contract -/

/-- C2: truncation contract.  For every text and cap `C`: when the raw
length exceeds `C` the stored value has length `C + len("...")` (hence at
most that) and ends with the ellipsis marker; otherwise it is returned
unmodified.  The remaining conjuncts tie the contract to the documented
sites: the research stage stores its raw model output truncated at 500,
the use-case stage at 400, and the proposal prompt embeds its three
inputs truncated at 200 / 200 / 100. -/
theorem truncation_contract :
    (∀ (s : Str) (C : Nat), C < s.length →
      (truncateEllipsis s C).length ≤ C + ellipsis.length ∧
      ∃ p, truncateEllipsis s C = p ++ ellipsis) ∧
    (∀ (s : Str) (C : Nat), s.length ≤ C → truncateEllipsis s C = s) ∧
    (∀ (env : Env) (subject : Str) (msgs : List Str) (m : Str),
      env.researchLLM (researchQuery subject) = .ok msgs → msgs.getLast? = some m →
      research_agent env subject = truncateEllipsis m 500) ∧
    (∀ (env : Env) (rd : Str) (msgs : List Str) (m : Str),
      env.useCaseLLM (useCaseQuery rd) = .ok msgs → msgs.getLast? = some m →
      use_case_agent env rd = truncateEllipsis m 400) ∧
    (∀ r u res : Str, proposalQuery r u res =
      strOf "Research: " ++ truncateEllipsis r 200 ++ strOf "\nUse Cases: " ++
      truncateEllipsis u 200 ++ strOf "\nResources: " ++ truncateEllipsis res 100 ++
      strOf "\n\nCreate brief proposal") := by
  refine ⟨?_, ?_, ?_, ?_, ?_⟩
  · intro s C h
    constructor
    · simp only [truncateEllipsis, if_pos h, List.length_append, List.length_take]
      omega
    · exact ⟨s.take C, by simp only [truncateEllipsis, if_pos h]⟩
  · intro s C h
    simp only [truncateEllipsis]
    rw [if_neg (by omega)]
  · intro env subject msgs m h1 h2
    simp [research_agent, h1, h2]
  · intro env rd msgs m h1 h2
    simp [use_case_agent, h1, h2]
  · intro r u res
    rfl

/-! ## C3: the use-case segmentation rule -/

/-- Segmentation rule as worded in the specification (§4.2), phrased as a
left fold over the input lines with state (flushed items, accumulating
item): a trimmed line that opens an item (bullet `-`/`*`, numbered marker
`1.`/`2.`, or containing a colon) flushes the accumulating item and
starts a new one; every other non-blank line is appended with a single
separating space; the final item is flushed at the end of input. -/
def specSegStep (st : List Str × Str) (l : Str) : List Str × Str :=
  let line := pyStrip l
  if startsItem line then
    (if st.2.isEmpty then st.1 else st.1 ++ [pyStrip st.2], line)
  else if line.isEmpty then st
  else (st.1, st.2 ++ strOf " " ++ line)

/-- The segmentation rule of the specification, applied to a whole text. -/
def specSegment (text : Str) : List Str :=
  let st := (splitLines text).foldl specSegStep ([], [])
  if st.2.isEmpty then st.1 else st.1 ++ [pyStrip st.2]

/-- The claim's reading of the numbered-marker clause: a line beginning
with any number followed by a dot (`1.`, `2.`, `3.`, ...). -/
def startsNumberedMarker : Str → Bool
  | [] => false
  | c :: rest => c.isDigit && startsWithL (rest.dropWhile Char.isDigit) (strOf ".")

/-- The claim's item-opening test, with every-number markers. -/
def claimStartsItem (line : Str) : Bool :=
  !line.isEmpty &&
    (startsWithL line (strOf "-") || startsWithL line (strOf "*") ||
     startsNumberedMarker line || containsChar line ':')

/-- The claim's segmentation rule (numbered markers unrestricted). -/
def claimSegStep (st : List Str × Str) (l : Str) : List Str × Str :=
  let line := pyStrip l
  if claimStartsItem line then
    (if st.2.isEmpty then st.1 else st.1 ++ [pyStrip st.2], line)
  else if line.isEmpty then st
  else (st.1, st.2 ++ strOf " " ++ line)

/-- The claim's segmentation applied to a whole text. -/
def claimSegment (text : Str) : List Str :=
  let st := (splitLines text).foldl claimSegStep ([], [])
  if st.2.isEmpty then st.1 else st.1 ++ [pyStrip st.2]

theorem extractLoop_eq_foldl (ls : List Str) :
    ∀ (current : Str) (acc : List Str),
      extractLoop ls current acc =
        (if (ls.foldl specSegStep (acc, current)).2.isEmpty
         then (ls.foldl specSegStep (acc, current)).1
         else (ls.foldl specSegStep (acc, current)).1 ++
              [pyStrip (ls.foldl specSegStep (acc, current)).2]) := by
  induction ls with
  | nil => intro c a; rfl
  | cons l t ih =>
    intro c a
    by_cases h1 : startsItem (pyStrip l) = true
    · simp only [extractLoop, List.foldl, specSegStep, h1, if_true]
      exact ih (pyStrip l) _
    · by_cases h2 : (pyStrip l).isEmpty = true
      · simp only [extractLoop, List.foldl, specSegStep, h1, h2, if_true, if_false]
        exact ih c a
      · simp only [extractLoop, List.foldl, specSegStep, h1, h2, if_true, if_false]
        exact ih _ a

/-- C3 counterexample: the code recognises only `1.` and `2.` as numbered
markers, so a line opening with `3.` (and containing no colon) does not
start a new item, while the claim's rule ("every subsequent number")
says it does. -/
theorem use_case_extraction_counterexample :
    extract_use_cases (strOf "1. Lead scoring\n3. Churn prediction") =
      [strOf "1. Lead scoring 3. Churn prediction"] ∧
    claimSegment (strOf "1. Lead scoring\n3. Churn prediction") =
      [strOf "1. Lead scoring", strOf "3. Churn prediction"] ∧
    extract_use_cases (strOf "1. Lead scoring\n3. Churn prediction") ≠
      claimSegment (strOf "1. Lead scoring\n3. Churn prediction") :=
  ⟨by decide, by decide, by decide⟩

/-- C3 (amended): use-case list extraction follows the stated
line-segmentation rule with the numbered-list markers restricted to the
two literals `1.` and `2.` (a line opening with any other number and
containing no colon is treated as a continuation line); the claim's
two-bullet example is reproduced exactly. -/
theorem use_case_extraction_rule :
    (∀ text : Str, extract_use_cases text = specSegment text) ∧
    extract_use_cases (strOf "- Fraud detection: detect anomalies\n- Chatbot support") =
      [strOf "- Fraud detection: detect anomalies", strOf "- Chatbot support"] := by
  constructor
  · intro text
    unfold extract_use_cases specSegment
    exact extractLoop_eq_foldl (splitLines text) [] []
  · decide

/-! ## C4: extraction is total, with a guaranteed fallback -/

/-- C4: for every input (the extraction is a total function, so it never
raises), the item list handed to the resource lookup is non-empty; when
the line loop detects no items, it is exactly the single non-empty
fallback item `"AI applications in <subject>"`; in particular the empty
input yields exactly the fallback. -/
theorem use_case_extraction_total :
    (∀ u ci : Str, use_case_items u ci ≠ []) ∧
    (∀ u ci : Str, extract_use_cases u = [] →
      use_case_items u ci = [strOf "AI applications in " ++ ci] ∧
      strOf "AI applications in " ++ ci ≠ []) ∧
    (∀ ci : Str, use_case_items [] ci = [strOf "AI applications in " ++ ci]) := by
  refine ⟨use_case_items_ne_nil, ?_, ?_⟩
  · intro u ci h
    constructor
    · simp [use_case_items, h]
    · simp [strOf]
  · intro ci
    have h : extract_use_cases [] = [] := rfl
    simp [use_case_items, h]

/-- C4 witness: the empty use-case text with subject "Retail Banking". -/
theorem use_case_extraction_total_witness :
    use_case_items [] (strOf "Retail Banking") =
      [strOf "AI applications in " ++ strOf "Retail Banking"] ∧
    strOf "AI applications in " ++ strOf "Retail Banking" ≠ [] :=
  use_case_extraction_total.2.1 [] (strOf "Retail Banking") (by decide)

/-- C2 witness: concrete instances of every conjunct of the truncation
contract, at cap 4 with an overlong and a short text, and at the research
stage with a concrete environment. -/
theorem truncation_contract_witness :
    ((truncateEllipsis (strOf "abcdef") 4).length ≤ 4 + ellipsis.length ∧
      ∃ p, truncateEllipsis (strOf "abcdef") 4 = p ++ ellipsis) ∧
    truncateEllipsis (strOf "ab") 4 = strOf "ab" :=
  ⟨truncation_contract.1 (strOf "abcdef") 4 (by decide),
   truncation_contract.2.1 (strOf "ab") 4 (by decide)⟩

/-! ## Concrete environments for witnesses and counterexamples -/

/-- Every external service fails: each completion and search call raises,
and Kaggle credentials are absent. -/
def envAllFail : Env :=
  { researchLLM := fun _ => .error (strOf "service unavailable"),
    useCaseLLM := fun _ => .error (strOf "service unavailable"),
    proposalLLM := fun _ => .error (strOf "service unavailable"),
    kaggleApi := none,
    hfSearch := fun _ _ => .error (strOf "network down"),
    ghSearch := fun _ _ => .error (strOf "network down"),
    kaggleCrash := none,
    resourceCrash := none }

/-- A run whose research completion raises with a two-line message. -/
def envMultilineErr : Env :=
  { envAllFail with researchLLM := fun _ => .error (strOf "Connection aborted\nretry failed") }

/-- A run whose resource stage hits an unexpected exception at its
boundary. -/
def envResourceCrash : Env :=
  { envAllFail with resourceCrash := some (strOf "boom") }

/-- A run whose research completion succeeds with a single empty message. -/
def envEmptyMsg : Env :=
  { envAllFail with researchLLM := fun _ => .ok [[]] }

/-! ## C7: fallback on absent Kaggle credentials -/

/-- C7: with Kaggle credentials absent (`setup_kaggle_api` returned
`None`), the primary-catalog search routes to the fallback and never
raises (it is a total function): for the default limit 2 it returns
exactly the 2 synthetic records, each labeled with a source containing
the `"(Fallback)"` tag. -/
theorem kaggle_fallback_on_missing_credentials
    (env : Env) (query : Str) (h : env.kaggleApi = none) :
    search_kaggle_datasets env query 2 = search_kaggle_fallback query 2 ∧
    (search_kaggle_datasets env query 2).length = 2 ∧
    ∀ r ∈ search_kaggle_datasets env query 2,
      r.source = some (strOf "Kaggle (Fallback)") ∧
      containsSub (strOf "Kaggle (Fallback)") (strOf "(Fallback)") = true := by
  have he : search_kaggle_datasets env query 2 = search_kaggle_fallback query 2 := by
    simp [search_kaggle_datasets, h]
  refine ⟨he, by rw [he]; rfl, ?_⟩
  rw [he]
  intro r hr
  simp only [search_kaggle_fallback, List.take, List.mem_cons, List.not_mem_nil,
    or_false] at hr
  rcases hr with h1 | h1 <;> subst h1 <;> exact ⟨rfl, by decide⟩

/-- C7 witness: the all-services-down environment with a concrete query. -/
theorem kaggle_fallback_witness :
    search_kaggle_datasets envAllFail (strOf "Fraud detection Retail Banking") 2 =
      search_kaggle_fallback (strOf "Fraud detection Retail Banking") 2 ∧
    (search_kaggle_datasets envAllFail (strOf "Fraud detection Retail Banking") 2).length = 2 ∧
    ∀ r ∈ search_kaggle_datasets envAllFail (strOf "Fraud detection Retail Banking") 2,
      r.source = some (strOf "Kaggle (Fallback)") ∧
      containsSub (strOf "Kaggle (Fallback)") (strOf "(Fallback)") = true :=
  kaggle_fallback_on_missing_credentials envAllFail (strOf "Fraud detection Retail Banking") rfl

/-! ## C9: stage-boundary error conversion -/

/-- C9 counterexample: a stage failure whose exception message spans two
lines is converted to a string that carries the stage marker but is not
one line — it contains a newline — refuting the "one-line string" part
of the claim. -/
theorem stage_error_counterexample :
    research_agent envMultilineErr (strOf "Tesla") =
      strOf "Research error: Connection aborted\nretry failed" ∧
    '\n' ∈ research_agent envMultilineErr (strOf "Tesla") :=
  ⟨by decide, by decide⟩

/-- C9 (amended): every failure inside any of the four stage functions is
caught at the stage boundary and converted into a string beginning with
that stage's distinguishing marker (the four markers are pairwise
distinct, so a caller can tell which stage failed, and "no data" apart
from "agent failed"); no exception propagates (each stage is total).
The converted string is one line whenever the underlying exception
message is one line, but inherits any newline the message contains. -/
theorem stage_error_conversion :
    (∀ (env : Env) (subject e : Str),
      env.researchLLM (researchQuery subject) = .error e →
      research_agent env subject = strOf "Research error: " ++ e) ∧
    (∀ (env : Env) (rd e : Str),
      env.useCaseLLM (useCaseQuery rd) = .error e →
      use_case_agent env rd = strOf "Use case error: " ++ e) ∧
    (∀ (env : Env) (u ci e : Str),
      env.resourceCrash = some e →
      resource_agent env u ci = strOf "Resource error: " ++ e) ∧
    (∀ (env : Env) (r u res e : Str),
      env.proposalLLM (proposalQuery r u res) = .error e →
      proposal_agent env r u res = strOf "Proposal error: " ++ e) ∧
    List.Nodup [strOf "Research error: ", strOf "Use case error: ",
      strOf "Resource error: ", strOf "Proposal error: "] ∧
    (∀ marker e : Str, '\n' ∉ marker → '\n' ∉ e → '\n' ∉ marker ++ e) ∧
    (∀ marker e : Str, startsWithL (marker ++ e) marker = true) := by
  refine ⟨?_, ?_, ?_, ?_, by decide, ?_, fun marker e => startsWithL_append_self marker e⟩
  · intro env s e h; simp [research_agent, h]
  · intro env rd e h; simp [use_case_agent, h]
  · intro env u ci e h; simp [resource_agent, h]
  · intro env r u res e h; simp [proposal_agent, h]
  · intro mk e h1 h2 hc
    rcases List.mem_append.mp hc with h | h
    · exact h1 h
    · exact h2 h

/-- C9 witness: the four conversion equations at concrete failing
environments, and one-line preservation at the research marker. -/
theorem stage_error_conversion_witness :
    research_agent envAllFail (strOf "Tesla") =
      strOf "Research error: " ++ strOf "service unavailable" ∧
    use_case_agent envAllFail (strOf "r") =
      strOf "Use case error: " ++ strOf "service unavailable" ∧
    resource_agent envResourceCrash (strOf "u") (strOf "Tesla") =
      strOf "Resource error: " ++ strOf "boom" ∧
    proposal_agent envAllFail (strOf "r") (strOf "u") (strOf "res") =
      strOf "Proposal error: " ++ strOf "service unavailable" ∧
    '\n' ∉ strOf "Research error: " ++ strOf "timeout" :=
  ⟨stage_error_conversion.1 envAllFail (strOf "Tesla") (strOf "service unavailable") rfl,
   stage_error_conversion.2.1 envAllFail (strOf "r") (strOf "service unavailable") rfl,
   stage_error_conversion.2.2.1 envResourceCrash (strOf "u") (strOf "Tesla") (strOf "boom") rfl,
   stage_error_conversion.2.2.2.1 envAllFail (strOf "r") (strOf "u") (strOf "res")
     (strOf "service unavailable") rfl,
   stage_error_conversion.2.2.2.2.2.1 (strOf "Research error: ") (strOf "timeout")
     (by decide) (by decide)⟩

/-! ## C1: the orchestrator's four-field reliability contract -/

/-- A completion oracle is well-behaved when a successful call never ends
in an empty final message (the raw `AIMessage` contents are non-empty). -/
def goodLLM (f : LLMCall) : Prop :=
  ∀ q msgs, f q = .ok msgs → msgs.getLast? ≠ some []

theorem truncateEllipsis_ne_nil {s : Str} (C : Nat) (h : s ≠ []) :
    truncateEllipsis s C ≠ [] := by
  unfold truncateEllipsis
  split
  · intro hc
    rw [List.append_eq_nil] at hc
    exact absurd hc.2 (by decide)
  · exact h

theorem format_cases (m : List (Str × List Resource)) :
    (∃ b, formatEntryList m = .ok b ∧
      format_resources_markdown m = .ok (strOf "# AI Implementation Resources\n\n" ++ b)) ∨
    (∃ e, formatEntryList m = .error e ∧ format_resources_markdown m = .error e) := by
  cases hb : formatEntryList m with
  | ok b => exact Or.inl ⟨b, rfl, by unfold format_resources_markdown; rw [hb]; rfl⟩
  | error e => exact Or.inr ⟨e, rfl, by unfold format_resources_markdown; rw [hb]; rfl⟩

theorem resource_agent_ne_nil (env : Env) (u ci : Str) :
    resource_agent env u ci ≠ [] := by
  unfold resource_agent
  cases hc : env.resourceCrash with
  | some e => exact append_ne_nil_left _ (by decide)
  | none =>
    rcases format_cases (aggregateResources env u ci) with ⟨b, _, hf⟩ | ⟨e, _, hf⟩
    · rw [hf]
      exact append_ne_nil_left _ (by decide)
    · rw [hf]
      exact append_ne_nil_left _ (by decide)

theorem research_agent_ne_nil (env : Env) (subject : Str)
    (hg : goodLLM env.researchLLM) : research_agent env subject ≠ [] := by
  cases h : env.researchLLM (researchQuery subject) with
  | error e =>
    simp only [research_agent, h]
    exact append_ne_nil_left _ (by decide)
  | ok msgs =>
    cases hm : msgs.getLast? with
    | none => simp only [research_agent, h, hm]; decide
    | some m =>
      simp only [research_agent, h, hm]
      refine truncateEllipsis_ne_nil 500 ?_
      intro hnil
      subst hnil
      exact hg _ _ h hm

theorem use_case_agent_ne_nil (env : Env) (rd : Str)
    (hg : goodLLM env.useCaseLLM) : use_case_agent env rd ≠ [] := by
  cases h : env.useCaseLLM (useCaseQuery rd) with
  | error e =>
    simp only [use_case_agent, h]
    exact append_ne_nil_left _ (by decide)
  | ok msgs =>
    cases hm : msgs.getLast? with
    | none => simp only [use_case_agent, h, hm]; decide
    | some m =>
      simp only [use_case_agent, h, hm]
      refine truncateEllipsis_ne_nil 400 ?_
      intro hnil
      subst hnil
      exact hg _ _ h hm

theorem proposal_agent_ne_nil (env : Env) (r u res : Str)
    (hg : goodLLM env.proposalLLM) : proposal_agent env r u res ≠ [] := by
  cases h : env.proposalLLM (proposalQuery r u res) with
  | error e =>
    simp only [proposal_agent, h]
    exact append_ne_nil_left _ (by decide)
  | ok msgs =>
    cases hm : msgs.getLast? with
    | none => simp only [proposal_agent, h, hm]; decide
    | some m =>
      simp only [proposal_agent, h, hm]
      intro hnil
      subst hnil
      exact hg _ _ h hm

/-- C1 counterexample: when the research completion call succeeds with a
single empty message, the research field of the orchestrator's result is
the empty string — refuting the claim's unconditional non-emptiness of
all four fields. -/
theorem orchestrator_counterexample :
    (orchestrate_agents envEmptyMsg (strOf "Tesla")).research = [] := by decide

/-- C1 (amended): for every environment and subject the orchestrator is a
total function (it never raises) returning exactly the four named fields;
the resources field is always non-empty, and each completion-backed field
(research, use cases, proposal) is non-empty provided the corresponding
completion service never succeeds with an empty final message — in
particular, under total external-service failure all four fields are
non-empty diagnostic strings. -/
theorem orchestrator_reliability (env : Env) (subject : Str) :
    (orchestrate_agents env subject).resources ≠ [] ∧
    (goodLLM env.researchLLM → (orchestrate_agents env subject).research ≠ []) ∧
    (goodLLM env.useCaseLLM → (orchestrate_agents env subject).use_cases ≠ []) ∧
    (goodLLM env.proposalLLM → (orchestrate_agents env subject).proposal ≠ []) := by
  refine ⟨resource_agent_ne_nil env _ subject, ?_, ?_, ?_⟩
  · intro hg
    exact research_agent_ne_nil env subject hg
  · intro hg
    exact use_case_agent_ne_nil env _ hg
  · intro hg
    exact proposal_agent_ne_nil env _ _ _ hg

/-- C1 witness: under total external-service failure every completion
oracle is vacuously well-behaved, and all four fields are non-empty. -/
theorem orchestrator_reliability_witness :
    (orchestrate_agents envAllFail (strOf "Tesla")).resources ≠ [] ∧
    (orchestrate_agents envAllFail (strOf "Tesla")).research ≠ [] ∧
    (orchestrate_agents envAllFail (strOf "Tesla")).use_cases ≠ [] ∧
    (orchestrate_agents envAllFail (strOf "Tesla")).proposal ≠ [] := by
  have hgood : ∀ f : LLMCall, (∀ q, f q = .error (strOf "service unavailable")) → goodLLM f := by
    intro f hf q msgs h
    rw [hf q] at h
    cases h
  have h := orchestrator_reliability envAllFail (strOf "Tesla")
  exact ⟨h.1, h.2.1 (hgood _ fun _ => rfl), h.2.2.1 (hgood _ fun _ => rfl),
    h.2.2.2 (hgood _ fun _ => rfl)⟩

/-! ## C5: bounds and non-emptiness of the aggregated resource map -/

theorem dictInsert_ne_nil {α : Type} (m : List (Str × α)) (k : Str) (v : α) :
    dictInsert m k v ≠ [] := by
  unfold dictInsert
  split
  · next h =>
    cases m with
    | nil => simp at h
    | cons a t => simp
  · simp

theorem dictInsert_length {α : Type} (m : List (Str × α)) (k : Str) (v : α) :
    m.length ≤ (dictInsert m k v).length ∧
    (dictInsert m k v).length ≤ m.length + 1 := by
  unfold dictInsert
  split <;> simp

theorem dictInsert_mem {α : Type} {m : List (Str × α)} {k : Str} {v : α}
    {p : Str × α} (h : p ∈ dictInsert m k v) : p ∈ m ∨ p.2 = v := by
  unfold dictInsert at h
  split at h
  · rw [List.mem_map] at h
    obtain ⟨q, hq, he⟩ := h
    by_cases hk : (q.1 == k) = true
    · rw [if_pos hk] at he
      subst he
      exact Or.inr rfl
    · rw [if_neg hk] at he
      subst he
      exact Or.inl hq
  · rw [List.mem_append] at h
    rcases h with h | h
    · exact Or.inl h
    · rw [List.mem_singleton] at h
      subst h
      exact Or.inr rfl

theorem foldl_dictInsert_length {α : Type} (g : Str → α) (cs : List Str) :
    ∀ m : List (Str × α),
      (List.foldl (fun m c => dictInsert m c (g c)) m cs).length ≤ m.length + cs.length ∧
      m.length ≤ (List.foldl (fun m c => dictInsert m c (g c)) m cs).length := by
  induction cs with
  | nil => intro m; simp
  | cons c t ih =>
    intro m
    have h1 := dictInsert_length m c (g c)
    have h2 := ih (dictInsert m c (g c))
    simp only [List.foldl_cons, List.length_cons]
    omega

theorem foldl_dictInsert_ne_nil {α : Type} (g : Str → α) (cs : List Str) :
    ∀ m : List (Str × α), m ≠ [] ∨ cs ≠ [] →
      List.foldl (fun m c => dictInsert m c (g c)) m cs ≠ [] := by
  induction cs with
  | nil =>
    intro m h
    rcases h with h | h
    · exact h
    · exact absurd rfl h
  | cons c t ih =>
    intro m _
    simp only [List.foldl_cons]
    exact ih _ (Or.inl (dictInsert_ne_nil m c (g c)))

theorem foldl_dictInsert_values {α : Type} (g : Str → α) (P : α → Prop)
    (hg : ∀ c, P (g c)) (cs : List Str) :
    ∀ m : List (Str × α), (∀ p ∈ m, P p.2) →
      ∀ p ∈ List.foldl (fun m c => dictInsert m c (g c)) m cs, P p.2 := by
  induction cs with
  | nil => intro m hm; exact hm
  | cons c t ih =>
    intro m hm
    simp only [List.foldl_cons]
    refine ih _ ?_
    intro p hp
    rcases dictInsert_mem hp with h | h
    · exact hm p h
    · rw [h]
      exact hg c

/-- The value stored for one use-case key by `resource_agent_kaggle`
(utils.py lines 121-131). -/
def kaggleValue (env : Env) (company_industry case : Str) : List Resource :=
  let query := case ++ strOf " " ++ company_industry
  let datasets := search_kaggle_datasets env query 2
  if datasets.isEmpty then [noDatasetSentinel] else datasets

theorem resource_agent_kaggle_eq (env : Env) (u ci : Str)
    (h : env.kaggleCrash = none) :
    resource_agent_kaggle env u ci 2 =
      ((use_case_items u ci).take 2).foldl
        (fun m c => dictInsert m c (kaggleValue env ci c)) [] := by
  unfold resource_agent_kaggle kaggleValue
  rw [h]

theorem kaggleValue_ne_nil (env : Env) (ci c : Str) : kaggleValue env ci c ≠ [] := by
  show (if (search_kaggle_datasets env (c ++ strOf " " ++ ci) 2).isEmpty = true
        then [noDatasetSentinel]
        else search_kaggle_datasets env (c ++ strOf " " ++ ci) 2) ≠ []
  by_cases h : (search_kaggle_datasets env (c ++ strOf " " ++ ci) 2).isEmpty = true
  · rw [if_pos h]
    simp
  · rw [if_neg h]
    simpa using h

theorem kaggle_map_facts (env : Env) (u ci : Str) :
    resource_agent_kaggle env u ci 2 ≠ [] ∧
    (resource_agent_kaggle env u ci 2).length ≤ 2 ∧
    ∀ p ∈ resource_agent_kaggle env u ci 2, p.2 ≠ [] := by
  cases hc : env.kaggleCrash with
  | some e =>
    simp only [resource_agent_kaggle, hc]
    refine ⟨by simp, by simp, ?_⟩
    intro p hp
    rw [List.mem_singleton] at hp
    subst hp
    simp
  | none =>
    rw [resource_agent_kaggle_eq env u ci hc]
    have htk : ((use_case_items u ci).take 2) ≠ [] := by
      have := use_case_items_ne_nil u ci
      intro hcon
      rw [List.take_eq_nil_iff] at hcon
      rcases hcon with h | h
      · exact absurd h (by decide)
      · exact this h
    have hlen := foldl_dictInsert_length (kaggleValue env ci) ((use_case_items u ci).take 2) []
    simp only [List.length_nil] at hlen
    refine ⟨foldl_dictInsert_ne_nil _ _ [] (Or.inr htk), ?_, ?_⟩
    · have h2 : ((use_case_items u ci).take 2).length ≤ 2 := by
        rw [List.length_take]
        omega
      omega
    · exact foldl_dictInsert_values (kaggleValue env ci) (fun v => v ≠ [])
        (kaggleValue_ne_nil env ci) ((use_case_items u ci).take 2) [] (by simp)

/-- C5: for every environment and inputs, the map assembled by the
resource stage has between 1 and 4 keys (at most 2 use-case keys plus
the two fixed secondary-catalog keys), every key maps to a non-empty
resource list (a catalog that found nothing never appears with an empty
list), and when both secondary catalogs return zero results the map is
exactly the primary-catalog map — they contribute no key at all. -/
theorem resource_map_bounds (env : Env) (u ci : Str) :
    1 ≤ (aggregateResources env u ci).length ∧
    (aggregateResources env u ci).length ≤ 4 ∧
    (∀ p ∈ aggregateResources env u ci, p.2 ≠ []) ∧
    (search_huggingface_datasets env ci 2 = [] ∧ search_github_repos env ci 2 = [] →
      aggregateResources env u ci = resource_agent_kaggle env u ci 2) := by
  obtain ⟨hk1, hk2, hk3⟩ := kaggle_map_facts env u ci
  have hk0 : 1 ≤ (resource_agent_kaggle env u ci 2).length := by
    cases hm : resource_agent_kaggle env u ci 2 with
    | nil => exact absurd hm hk1
    | cons a t => simp
  have hlast : search_huggingface_datasets env ci 2 = [] ∧
      search_github_repos env ci 2 = [] →
      aggregateResources env u ci = resource_agent_kaggle env u ci 2 := by
    rintro ⟨h1, h2⟩
    simp [aggregateResources, h1, h2]
  have hmain : 1 ≤ (aggregateResources env u ci).length ∧
      (aggregateResources env u ci).length ≤ 4 ∧
      ∀ p ∈ aggregateResources env u ci, p.2 ≠ [] := by
    by_cases h1 : search_huggingface_datasets env ci 2 = []
    · by_cases h2 : search_github_repos env ci 2 = []
      · have he : aggregateResources env u ci = resource_agent_kaggle env u ci 2 := by
          simp [aggregateResources, h1, h2]
        rw [he]
        exact ⟨hk0, by omega, hk3⟩
      · have he : aggregateResources env u ci =
            dictInsert (resource_agent_kaggle env u ci 2) (strOf "GitHub Repositories")
              (search_github_repos env ci 2) := by
          simp [aggregateResources, h1, h2]
        rw [he]
        have hd := dictInsert_length (resource_agent_kaggle env u ci 2)
          (strOf "GitHub Repositories") (search_github_repos env ci 2)
        refine ⟨by omega, by omega, ?_⟩
        intro p hp
        rcases dictInsert_mem hp with h | h
        · exact hk3 p h
        · rw [h]
          exact h2
    · by_cases h2 : search_github_repos env ci 2 = []
      · have he : aggregateResources env u ci =
            dictInsert (resource_agent_kaggle env u ci 2) (strOf "HuggingFace Datasets")
              (search_huggingface_datasets env ci 2) := by
          simp [aggregateResources, h1, h2]
        rw [he]
        have hd := dictInsert_length (resource_agent_kaggle env u ci 2)
          (strOf "HuggingFace Datasets") (search_huggingface_datasets env ci 2)
        refine ⟨by omega, by omega, ?_⟩
        intro p hp
        rcases dictInsert_mem hp with h | h
        · exact hk3 p h
        · rw [h]
          exact h1
      · have he : aggregateResources env u ci =
            dictInsert
              (dictInsert (resource_agent_kaggle env u ci 2) (strOf "HuggingFace Datasets")
                (search_huggingface_datasets env ci 2))
              (strOf "GitHub Repositories") (search_github_repos env ci 2) := by
          simp [aggregateResources, h1, h2]
        rw [he]
        have hd1 := dictInsert_length (resource_agent_kaggle env u ci 2)
          (strOf "HuggingFace Datasets") (search_huggingface_datasets env ci 2)
        have hd2 := dictInsert_length
          (dictInsert (resource_agent_kaggle env u ci 2) (strOf "HuggingFace Datasets")
            (search_huggingface_datasets env ci 2))
          (strOf "GitHub Repositories") (search_github_repos env ci 2)
        refine ⟨by omega, by omega, ?_⟩
        intro p hp
        rcases dictInsert_mem hp with h | h
        · rcases dictInsert_mem h with h' | h'
          · exact hk3 p h'
          · rw [h']
            exact h1
        · rw [h]
          exact h2
  exact ⟨hmain.1, hmain.2.1, hmain.2.2, hlast⟩

/-- C5 witness: the all-services-down run, where both secondary catalogs
return zero results and the map is exactly the primary-catalog map. -/
theorem resource_map_bounds_witness :
    aggregateResources envAllFail (strOf "u") (strOf "Tesla") =
      resource_agent_kaggle envAllFail (strOf "u") (strOf "Tesla") 2 :=
  (resource_map_bounds envAllFail (strOf "u") (strOf "Tesla")).2.2.2 ⟨rfl, rfl⟩

/-! ## C10: mandatory record fields and total formatting -/

/-- The three fields the formatter reads unconditionally. -/
def hasCore (r : Resource) : Prop :=
  r.title.isSome = true ∧ r.url.isSome = true ∧ r.source.isSome = true

theorem formatResource_ok (r : Resource) (h : hasCore r) :
    ∃ out, formatResource r = .ok out := by
  obtain ⟨ht, hu, hs⟩ := h
  obtain ⟨t, ht⟩ := Option.isSome_iff_exists.mp ht
  obtain ⟨u, hu⟩ := Option.isSome_iff_exists.mp hu
  obtain ⟨s, hs⟩ := Option.isSome_iff_exists.mp hs
  unfold formatResource
  rw [ht, hu, hs]
  exact ⟨_, rfl⟩

theorem formatResourceList_ok (rs : List Resource) (h : ∀ r ∈ rs, hasCore r) :
    ∃ out, formatResourceList rs = .ok out := by
  induction rs with
  | nil => exact ⟨[], rfl⟩
  | cons r t ih =>
    obtain ⟨a, ha⟩ := formatResource_ok r (h r (by simp))
    obtain ⟨b, hb⟩ := ih (fun x hx => h x (by simp [hx]))
    refine ⟨a ++ b, ?_⟩
    unfold formatResourceList
    rw [ha, hb]
    rfl

theorem formatEntry_ok (k : Str) (rs : List Resource) (h : ∀ r ∈ rs, hasCore r) :
    ∃ out, formatEntry k rs = .ok out := by
  simp only [formatEntry]
  by_cases hg : placeholderGuard rs = true
  · rw [if_pos hg]
    exact ⟨_, rfl⟩
  · rw [if_neg hg]
    obtain ⟨b, hb⟩ := formatResourceList_ok rs h
    rw [hb]
    exact ⟨_, rfl⟩

theorem formatEntryList_ok (m : List (Str × List Resource))
    (h : ∀ p ∈ m, ∀ r ∈ p.2, hasCore r) :
    ∃ out, formatEntryList m = .ok out := by
  induction m with
  | nil => exact ⟨[], rfl⟩
  | cons p t ih =>
    obtain ⟨a, ha⟩ := formatEntry_ok p.1 p.2 (h p (by simp))
    obtain ⟨b, hb⟩ := ih (fun x hx => h x (by simp [hx]))
    refine ⟨a ++ b, ?_⟩
    unfold formatEntryList
    rw [ha, hb]
    rfl

theorem search_kaggle_fallback_core (q : Str) (n : Nat) :
    ∀ r ∈ search_kaggle_fallback q n, hasCore r := by
  intro r hr
  have hr' := List.take_subset n _ hr
  simp only [List.mem_cons, List.not_mem_nil, or_false] at hr'
  rcases hr' with h | h <;> subst h <;> exact ⟨rfl, rfl, rfl⟩

theorem search_kaggle_datasets_core (env : Env) (q : Str) (n : Nat) :
    ∀ r ∈ search_kaggle_datasets env q n, hasCore r := by
  intro r hr
  cases ha : env.kaggleApi with
  | none =>
    simp only [search_kaggle_datasets, ha] at hr
    exact search_kaggle_fallback_core q n r hr
  | some api =>
    cases hq : api q with
    | error e =>
      simp only [search_kaggle_datasets, ha, hq] at hr
      exact search_kaggle_fallback_core q n r hr
    | ok ds =>
      simp only [search_kaggle_datasets, ha, hq, List.mem_map] at hr
      obtain ⟨d, _, hd⟩ := hr
      subst hd
      exact ⟨rfl, rfl, rfl⟩

theorem kaggleValue_core (env : Env) (ci c : Str) :
    ∀ r ∈ kaggleValue env ci c, hasCore r := by
  intro r hr
  have he : kaggleValue env ci c =
      (if (search_kaggle_datasets env (c ++ strOf " " ++ ci) 2).isEmpty = true
       then [noDatasetSentinel]
       else search_kaggle_datasets env (c ++ strOf " " ++ ci) 2) := rfl
  rw [he] at hr
  split at hr
  · rw [List.mem_singleton] at hr
    subst hr
    exact ⟨rfl, rfl, rfl⟩
  · exact search_kaggle_datasets_core env _ 2 r hr

theorem search_huggingface_datasets_core (env : Env) (q : Str) (n : Nat) :
    ∀ r ∈ search_huggingface_datasets env q n, hasCore r := by
  intro r hr
  unfold search_huggingface_datasets at hr
  cases hq : env.hfSearch q n with
  | error e =>
    rw [hq] at hr
    cases hr
  | ok ds =>
    rw [hq] at hr
    rw [List.mem_map] at hr
    obtain ⟨d, _, hd⟩ := hr
    subst hd
    exact ⟨rfl, rfl, rfl⟩

theorem search_github_repos_core (env : Env) (q : Str) (n : Nat) :
    ∀ r ∈ search_github_repos env q n, hasCore r := by
  intro r hr
  unfold search_github_repos at hr
  cases hq : env.ghSearch q n with
  | error e =>
    rw [hq] at hr
    cases hr
  | ok items =>
    rw [hq] at hr
    rw [List.mem_map] at hr
    obtain ⟨d, _, hd⟩ := hr
    subst hd
    exact ⟨rfl, rfl, rfl⟩

theorem kaggle_map_core (env : Env) (u ci : Str) :
    ∀ p ∈ resource_agent_kaggle env u ci 2, ∀ r ∈ p.2, hasCore r := by
  cases hc : env.kaggleCrash with
  | some e =>
    simp only [resource_agent_kaggle, hc]
    intro p hp
    rw [List.mem_singleton] at hp
    subst hp
    intro r hr
    rw [List.mem_singleton] at hr
    subst hr
    exact ⟨rfl, rfl, rfl⟩
  | none =>
    rw [resource_agent_kaggle_eq env u ci hc]
    exact foldl_dictInsert_values (kaggleValue env ci) (fun v => ∀ r ∈ v, hasCore r)
      (fun c => kaggleValue_core env ci c) ((use_case_items u ci).take 2) []
      (by simp)

theorem aggregateResources_values (P : List Resource → Prop)
    (env : Env) (u ci : Str)
    (hk : ∀ p ∈ resource_agent_kaggle env u ci 2, P p.2)
    (hhf : P (search_huggingface_datasets env ci 2))
    (hgh : P (search_github_repos env ci 2)) :
    ∀ p ∈ aggregateResources env u ci, P p.2 := by
  by_cases h1 : search_huggingface_datasets env ci 2 = [] <;>
    by_cases h2 : search_github_repos env ci 2 = []
  · have he : aggregateResources env u ci = resource_agent_kaggle env u ci 2 := by
      simp [aggregateResources, h1, h2]
    rw [he]
    exact hk
  · have he : aggregateResources env u ci =
        dictInsert (resource_agent_kaggle env u ci 2) (strOf "GitHub Repositories")
          (search_github_repos env ci 2) := by
      simp [aggregateResources, h1, h2]
    rw [he]
    intro p hp
    rcases dictInsert_mem hp with h | h
    · exact hk p h
    · rw [h]
      exact hgh
  · have he : aggregateResources env u ci =
        dictInsert (resource_agent_kaggle env u ci 2) (strOf "HuggingFace Datasets")
          (search_huggingface_datasets env ci 2) := by
      simp [aggregateResources, h1, h2]
    rw [he]
    intro p hp
    rcases dictInsert_mem hp with h | h
    · exact hk p h
    · rw [h]
      exact hhf
  · have he : aggregateResources env u ci =
        dictInsert
          (dictInsert (resource_agent_kaggle env u ci 2) (strOf "HuggingFace Datasets")
            (search_huggingface_datasets env ci 2))
          (strOf "GitHub Repositories") (search_github_repos env ci 2) := by
      simp [aggregateResources, h1, h2]
    rw [he]
    intro p hp
    rcases dictInsert_mem hp with h | h
    · rcases dictInsert_mem h with h' | h'
      · exact hk p h'
      · rw [h']
        exact hhf
    · rw [h]
      exact hgh

/-- C10: every resource record placed into the mapping by any producer —
the Kaggle API search, the credential fallback, the per-use-case
sentinel, the aggregation error record, the HuggingFace search and the
GitHub search — carries the `title`, `url` and `source` fields that the
formatter reads unconditionally (`description`, `downloads` and `stars`
are membership-guarded), so rendering any mapping produced by the
aggregation step never fails on a missing field. -/
theorem aggregated_records_formattable (env : Env) (u ci : Str) :
    (∀ q n, ∀ r ∈ search_kaggle_datasets env q n, hasCore r) ∧
    (∀ q n, ∀ r ∈ search_kaggle_fallback q n, hasCore r) ∧
    hasCore noDatasetSentinel ∧
    (∀ e, hasCore (kaggleErrorRecord e)) ∧
    (∀ q n, ∀ r ∈ search_huggingface_datasets env q n, hasCore r) ∧
    (∀ q n, ∀ r ∈ search_github_repos env q n, hasCore r) ∧
    (∀ p ∈ aggregateResources env u ci, ∀ r ∈ p.2, hasCore r) ∧
    ∃ out, format_resources_markdown (aggregateResources env u ci) = .ok out := by
  have hcore : ∀ p ∈ aggregateResources env u ci, ∀ r ∈ p.2, hasCore r :=
    aggregateResources_values (fun v => ∀ r ∈ v, hasCore r) env u ci (kaggle_map_core env u ci)
      (search_huggingface_datasets_core env ci 2)
      (search_github_repos_core env ci 2)
  refine ⟨fun q n => search_kaggle_datasets_core env q n,
    fun q n => search_kaggle_fallback_core q n,
    ⟨rfl, rfl, rfl⟩, fun e => ⟨rfl, rfl, rfl⟩,
    fun q n => search_huggingface_datasets_core env q n,
    fun q n => search_github_repos_core env q n, hcore, ?_⟩
  obtain ⟨b, hb⟩ := formatEntryList_ok (aggregateResources env u ci) hcore
  rcases format_cases (aggregateResources env u ci) with ⟨b', _, hf⟩ | ⟨e, he, _⟩
  · exact ⟨_, hf⟩
  · rw [he] at hb
    cases hb

/-! ## C6: placeholder rendering and the error marker -/

theorem containsSub_error_marker (e : Str) :
    containsSub (strOf "Kaggle API Error: " ++ e) (strOf "Error") = true := by
  unfold containsSub
  rw [List.any_eq_true]
  refine ⟨11, ?_, ?_⟩
  · rw [List.mem_range, List.length_append]
    have h18 : (strOf "Kaggle API Error: ").length = 18 := rfl
    omega
  · have hd : List.drop 11 (strOf "Kaggle API Error: " ++ e) = strOf "Error: " ++ e := rfl
    have hsplit : strOf "Error: " ++ e = strOf "Error" ++ (strOf ": " ++ e) := rfl
    rw [hd, hsplit, startsWithL_append_self]

/-- C6 counterexample: a key whose sole resource is the "no resource
found" sentinel is rendered as an ordinary bullet, not as the
explanatory placeholder: the sentinel's title ("No specific dataset
found") does not contain the "Error" marker the formatter checks for,
so the placeholder line does not appear in the output. -/
theorem sentinel_rendering_counterexample :
    format_resources_markdown [(strOf "Fraud detection", [noDatasetSentinel])] =
      .ok (strOf "# AI Implementation Resources\n\n## Use Case: Fraud detection\n\n- **[No specific dataset found](https://www.kaggle.com/datasets)** (Kaggle)\n  - Search for relevant datasets on Kaggle\n\n") ∧
    containsSub
      (strOf "# AI Implementation Resources\n\n## Use Case: Fraud detection\n\n- **[No specific dataset found](https://www.kaggle.com/datasets)** (Kaggle)\n  - Search for relevant datasets on Kaggle\n\n")
      (strOf "No specific resources found") = false ∧
    placeholderGuard [noDatasetSentinel] = false :=
  ⟨rfl, by decide, by decide⟩

/-- C6 (amended): a key whose sole resource carries the literal "Error"
marker in its title — as the aggregation error record does — is rendered
as the explanatory one-line placeholder instead of bullets, and that
case is distinguishable by checking the title of the one-element list
for the marker; the per-use-case "No specific dataset found" sentinel
does not carry the marker and is rendered as an ordinary bullet. -/
theorem sentinel_rendering (k e : Str) (r : Resource)
    (h : containsSub (r.title.getD []) (strOf "Error") = true) :
    formatEntry k [r] =
      .ok (strOf "## Use Case: " ++ k ++
        strOf "\n\nNo specific resources found for this use case.\n\n") ∧
    containsSub ((kaggleErrorRecord e).title.getD []) (strOf "Error") = true ∧
    placeholderGuard [kaggleErrorRecord e] = true ∧
    placeholderGuard [noDatasetSentinel] = false ∧
    formatEntry k [noDatasetSentinel] =
      .ok (strOf "## Use Case: " ++ k ++
        strOf "\n\n- **[No specific dataset found](https://www.kaggle.com/datasets)** (Kaggle)\n  - Search for relevant datasets on Kaggle\n\n") := by
  refine ⟨?_, containsSub_error_marker e, containsSub_error_marker e, by decide, ?_⟩
  · simp only [formatEntry]
    rw [if_pos (show placeholderGuard [r] = true from h)]
    have hbp : strOf "\n\n" ++ strOf "No specific resources found for this use case.\n\n" =
        strOf "\n\nNo specific resources found for this use case.\n\n" := rfl
    simp only [List.append_assoc]
    rw [hbp]
  · simp only [formatEntry]
    rw [if_neg (show ¬placeholderGuard [noDatasetSentinel] = true by decide)]
    have hfr : formatResourceList [noDatasetSentinel] =
        .ok (strOf "- **[No specific dataset found](https://www.kaggle.com/datasets)** (Kaggle)\n  - Search for relevant datasets on Kaggle\n\n") := rfl
    rw [hfr]
    show Except.ok ((strOf "## Use Case: " ++ k ++ strOf "\n\n") ++
        strOf "- **[No specific dataset found](https://www.kaggle.com/datasets)** (Kaggle)\n  - Search for relevant datasets on Kaggle\n\n") =
      .ok (strOf "## Use Case: " ++ k ++
        strOf "\n\n- **[No specific dataset found](https://www.kaggle.com/datasets)** (Kaggle)\n  - Search for relevant datasets on Kaggle\n\n")
    have hbp : strOf "\n\n" ++
        strOf "- **[No specific dataset found](https://www.kaggle.com/datasets)** (Kaggle)\n  - Search for relevant datasets on Kaggle\n\n" =
        strOf "\n\n- **[No specific dataset found](https://www.kaggle.com/datasets)** (Kaggle)\n  - Search for relevant datasets on Kaggle\n\n" := rfl
    simp only [List.append_assoc]
    rw [hbp]

/-- C6 witness: the amended rendering at the aggregation error record and
a concrete key. -/
theorem sentinel_rendering_witness :
    formatEntry (strOf "Error") [kaggleErrorRecord (strOf "401 Unauthorized")] =
      .ok (strOf "## Use Case: " ++ strOf "Error" ++
        strOf "\n\nNo specific resources found for this use case.\n\n") ∧
    containsSub ((kaggleErrorRecord (strOf "boom")).title.getD []) (strOf "Error") = true ∧
    placeholderGuard [kaggleErrorRecord (strOf "boom")] = true ∧
    placeholderGuard [noDatasetSentinel] = false ∧
    formatEntry (strOf "Error") [noDatasetSentinel] =
      .ok (strOf "## Use Case: " ++ strOf "Error" ++
        strOf "\n\n- **[No specific dataset found](https://www.kaggle.com/datasets)** (Kaggle)\n  - Search for relevant datasets on Kaggle\n\n") :=
  sentinel_rendering (strOf "Error") (strOf "boom") (kaggleErrorRecord (strOf "401 Unauthorized"))
    (by decide)

/-! ## C8: line structure of the formatted output -/

/-- No newline occurs in the string. -/
def noNL (s : Str) : Prop := '\n' ∉ s

instance (s : Str) : Decidable (noNL s) :=
  inferInstanceAs (Decidable ('\n' ∉ s))

/-- Terminate each line with a newline and concatenate. -/
def unlines (ls : List Str) : Str := (ls.map (fun l => l ++ strOf "\n")).flatten

/-- The bullet line the formatter emits for one record: the title (as a
link when a URL is present) and the source tag. -/
def bulletLine (r : Resource) : Str :=
  if (r.url.getD []).isEmpty then
    strOf "- **" ++ r.title.getD [] ++ strOf "** (" ++ r.source.getD [] ++ strOf ")"
  else
    strOf "- **[" ++ r.title.getD [] ++ strOf "](" ++ r.url.getD [] ++
      strOf ")** (" ++ r.source.getD [] ++ strOf ")"

/-- The lines of one record's block: the bullet first, the indented
description directly under it, then the optional metric lines, then a
blank line. -/
def recordLines (r : Resource) : List Str :=
  [bulletLine r] ++
  (r.description.map (fun d => strOf "  - " ++ d)).toList ++
  (r.downloads.map (fun n => strOf "  - Downloads: " ++ strOf (toString n))).toList ++
  (r.stars.map (fun n => strOf "  - Stars: " ++ strOf (toString n))).toList ++
  [[]]

/-- The lines of one resource-map entry: the key's sub-heading first, a
blank line, then either the placeholder line or the record blocks in
list order. -/
def entryLines (e : Str × List Resource) : List Str :=
  [strOf "## Use Case: " ++ e.1, []] ++
  (if placeholderGuard e.2 then [strOf "No specific resources found for this use case.", []]
   else (e.2.map recordLines).flatten)

theorem splitLines_append_cons (l t : Str) (h : noNL l) :
    splitLines (l ++ '\n' :: t) = l :: splitLines t := by
  induction l with
  | nil => simp [splitLines]
  | cons c cs ih =>
    have hc : ¬c = '\n' := fun hcc => h (hcc ▸ List.mem_cons_self c cs)
    have hcs : noNL cs := fun hm => h (List.mem_cons_of_mem c hm)
    simp only [List.cons_append, splitLines, List.append_eq]
    rw [if_neg hc, ih hcs]

theorem unlines_cons (l : Str) (ls : List Str) :
    unlines (l :: ls) = (l ++ strOf "\n") ++ unlines ls := rfl

theorem unlines_append (a b : List Str) :
    unlines (a ++ b) = unlines a ++ unlines b := by
  simp [unlines, List.flatten_append]

theorem splitLines_unlines (ls : List Str) (h : ∀ l ∈ ls, noNL l) :
    splitLines (unlines ls) = ls ++ [[]] := by
  induction ls with
  | nil => rfl
  | cons l t ih =>
    have hstep : (l ++ strOf "\n") ++ unlines t = l ++ ('\n' :: unlines t) := by
      rw [List.append_assoc]
      rfl
    rw [unlines_cons, hstep, splitLines_append_cons l _ (h l (by simp)),
      ih (fun x hx => h x (by simp [hx]))]
    rfl

theorem formatResource_eq (r : Resource) (t u s : Str)
    (ht : r.title = some t) (hu : r.url = some u) (hs : r.source = some s) :
    formatResource r = .ok (unlines (recordLines r)) := by
  unfold formatResource recordLines bulletLine
  rw [ht, hu, hs]
  cases hd : r.description <;> cases hdl : r.downloads <;> cases hst : r.stars <;>
    by_cases hu2 : u.isEmpty = true <;>
    simp only [getKey, Option.getD_some, hu2, unlines, List.map, List.flatten,
      List.append_assoc, List.cons_append, List.nil_append, List.append_nil,
      Bool.false_eq_true, if_false, if_true, except_bind_ok] <;> rfl

theorem formatResourceList_eq (rs : List Resource) (h : ∀ r ∈ rs, hasCore r) :
    formatResourceList rs = .ok (unlines ((rs.map recordLines).flatten)) := by
  induction rs with
  | nil => rfl
  | cons r rest ih =>
    obtain ⟨ht0, hu0, hs0⟩ := h r (by simp)
    obtain ⟨t, ht⟩ := Option.isSome_iff_exists.mp ht0
    obtain ⟨u, hu⟩ := Option.isSome_iff_exists.mp hu0
    obtain ⟨s, hs⟩ := Option.isSome_iff_exists.mp hs0
    unfold formatResourceList
    rw [formatResource_eq r t u s ht hu hs, ih (fun x hx => h x (by simp [hx]))]
    show Except.ok (unlines (recordLines r) ++ unlines ((rest.map recordLines).flatten)) = _
    rw [← unlines_append]
    rfl

theorem formatEntry_eq (k : Str) (rs : List Resource) (h : ∀ r ∈ rs, hasCore r) :
    formatEntry k rs = .ok (unlines (entryLines (k, rs))) := by
  simp only [formatEntry, entryLines]
  by_cases hg : placeholderGuard rs = true
  · rw [if_pos hg, if_pos hg]
    simp only [unlines, List.map, List.flatten, List.append_assoc, List.cons_append,
      List.nil_append, List.append_nil]
    rfl
  · rw [if_neg hg, if_neg hg]
    rw [formatResourceList_eq rs h]
    show Except.ok ((strOf "## Use Case: " ++ k ++ strOf "\n\n") ++
        unlines ((rs.map recordLines).flatten)) = _
    rw [unlines_append]
    simp only [unlines, List.map, List.flatten, List.append_assoc, List.cons_append,
      List.nil_append, List.append_nil]
    rfl

theorem formatEntryList_eq (m : List (Str × List Resource))
    (h : ∀ p ∈ m, ∀ r ∈ p.2, hasCore r) :
    formatEntryList m = .ok (unlines ((m.map entryLines).flatten)) := by
  induction m with
  | nil => rfl
  | cons p rest ih =>
    obtain ⟨k, rs⟩ := p
    unfold formatEntryList
    rw [formatEntry_eq k rs (h (k, rs) (by simp)), ih (fun x hx => h x (by simp [hx]))]
    show Except.ok (unlines (entryLines (k, rs)) ++ unlines ((rest.map entryLines).flatten)) = _
    rw [← unlines_append]
    rfl

theorem format_markdown_eq (m : List (Str × List Resource))
    (h : ∀ p ∈ m, ∀ r ∈ p.2, hasCore r) :
    format_resources_markdown m =
      .ok (unlines ([strOf "# AI Implementation Resources", []] ++
        (m.map entryLines).flatten)) := by
  unfold format_resources_markdown
  rw [formatEntryList_eq m h]
  show Except.ok (strOf "# AI Implementation Resources\n\n" ++
      unlines ((m.map entryLines).flatten)) = _
  rw [unlines_append]
  rfl

theorem noNL_append {a b : Str} (ha : noNL a) (hb : noNL b) : noNL (a ++ b) := by
  intro hc
  rcases List.mem_append.mp hc with h | h
  · exact ha h
  · exact hb h

theorem digitChar_ne_newline (n : Nat) : Nat.digitChar n ≠ '\n' := by
  match n with
  | 0 | 1 | 2 | 3 | 4 | 5 | 6 | 7 | 8 | 9 | 10 | 11 | 12 | 13 | 14 | 15 => decide
  | (m + 16) => exact ((by decide : ('*' : Char) ≠ '\n'))

theorem toDigitsCore_noNL (b : Nat) (f : Nat) :
    ∀ (n : Nat) (ds : List Char), (∀ c ∈ ds, c ≠ '\n') →
      ∀ c ∈ Nat.toDigitsCore b f n ds, c ≠ '\n' := by
  induction f with
  | zero =>
    intro n ds h
    simpa [Nat.toDigitsCore] using h
  | succ f ih =>
    intro n ds h
    simp only [Nat.toDigitsCore]
    split
    · intro c hc
      rcases List.mem_cons.mp hc with h1 | h1
      · subst h1
        exact digitChar_ne_newline _
      · exact h c h1
    · refine ih _ _ ?_
      intro c hc
      rcases List.mem_cons.mp hc with h1 | h1
      · subst h1
        exact digitChar_ne_newline _
      · exact h c h1

theorem noNL_int_toString (n : Int) : noNL (strOf (toString n)) := by
  cases n with
  | ofNat m =>
    intro hc
    have he : strOf (toString (Int.ofNat m)) = Nat.toDigits 10 m := rfl
    rw [he] at hc
    exact toDigitsCore_noNL 10 (m + 1) m [] (by simp) '\n' hc rfl
  | negSucc m =>
    intro hc
    have he : strOf (toString (Int.negSucc m)) = '-' :: Nat.toDigits 10 (m + 1) := rfl
    rw [he] at hc
    rcases List.mem_cons.mp hc with h1 | h1
    · exact absurd h1 (by decide)
    · exact toDigitsCore_noNL 10 (m + 2) (m + 1) [] (by simp) '\n' h1 rfl

/-- A record all of whose displayed text fields are single-line, with the
three mandatory fields present. -/
def cleanRecord (r : Resource) : Prop :=
  hasCore r ∧ noNL (r.title.getD []) ∧ noNL (r.url.getD []) ∧
  noNL (r.source.getD []) ∧ noNL (r.description.getD [])

/-- An entry with a single-line key whose records are all clean. -/
def cleanEntry (e : Str × List Resource) : Prop :=
  noNL e.1 ∧ ∀ r ∈ e.2, cleanRecord r

theorem noNL_bulletLine (r : Resource) (h1 : noNL (r.title.getD []))
    (h2 : noNL (r.url.getD [])) (h3 : noNL (r.source.getD [])) :
    noNL (bulletLine r) := by
  unfold bulletLine
  split
  · exact noNL_append (noNL_append (noNL_append (noNL_append (by decide) h1)
      (by decide)) h3) (by decide)
  · exact noNL_append (noNL_append (noNL_append (noNL_append (noNL_append
      (noNL_append (by decide) h1) (by decide)) h2) (by decide)) h3) (by decide)

theorem mem_opt_line {α : Type} {o : Option α} {f : α → Str} {l : Str}
    (h : l ∈ (o.map f).toList) : ∃ d, o = some d ∧ l = f d := by
  cases o with
  | none => cases h
  | some d =>
    have h' : l ∈ [f d] := h
    rw [List.mem_singleton] at h'
    exact ⟨d, rfl, h'⟩

theorem noNL_recordLines (r : Resource) (h : cleanRecord r) :
    ∀ l ∈ recordLines r, noNL l := by
  obtain ⟨_, h1, h2, h3, h4⟩ := h
  intro l hl
  unfold recordLines at hl
  rcases List.mem_append.mp hl with hl | hl
  rotate_left
  · rw [List.mem_singleton] at hl
    subst hl
    decide
  rcases List.mem_append.mp hl with hl | hl
  rotate_left
  · obtain ⟨d, hdd, hld⟩ := mem_opt_line hl
    subst hld
    exact noNL_append (by decide) (noNL_int_toString d)
  rcases List.mem_append.mp hl with hl | hl
  rotate_left
  · obtain ⟨d, hdd, hld⟩ := mem_opt_line hl
    subst hld
    exact noNL_append (by decide) (noNL_int_toString d)
  rcases List.mem_append.mp hl with hl | hl
  · rw [List.mem_singleton] at hl
    subst hl
    exact noNL_bulletLine r h1 h2 h3
  · obtain ⟨d, hdd, hld⟩ := mem_opt_line hl
    subst hld
    refine noNL_append (by decide) ?_
    rw [hdd] at h4
    exact h4

theorem noNL_entryLines (e : Str × List Resource) (h : cleanEntry e) :
    ∀ l ∈ entryLines e, noNL l := by
  obtain ⟨hk, hr⟩ := h
  intro l hl
  unfold entryLines at hl
  rcases List.mem_append.mp hl with hl | hl
  · rcases List.mem_cons.mp hl with hl | hl
    · subst hl
      exact noNL_append (by decide) hk
    · rw [List.mem_singleton] at hl
      subst hl
      decide
  · split at hl
    · rcases List.mem_cons.mp hl with hl | hl
      · subst hl
        decide
      · rw [List.mem_singleton] at hl
        subst hl
        decide
    · rw [List.mem_flatten] at hl
      obtain ⟨lns, hlns, hmem⟩ := hl
      rw [List.mem_map] at hlns
      obtain ⟨x, hx, hln⟩ := hlns
      subst hln
      exact noNL_recordLines x (hr x hx) l hmem

instance (r : Resource) : Decidable (hasCore r) :=
  inferInstanceAs (Decidable (r.title.isSome = true ∧ r.url.isSome = true ∧
    r.source.isSome = true))

instance (r : Resource) : Decidable (cleanRecord r) :=
  inferInstanceAs (Decidable (hasCore r ∧ noNL (r.title.getD []) ∧ noNL (r.url.getD []) ∧
    noNL (r.source.getD []) ∧ noNL (r.description.getD [])))

instance (e : Str × List Resource) : Decidable (cleanEntry e) :=
  inferInstanceAs (Decidable (noNL e.1 ∧ ∀ r ∈ e.2, cleanRecord r))

/-- Does a line open with the sub-heading marker? -/
def isSubLine (l : Str) : Bool := startsWithL l (strOf "## Use Case: ")

theorem startsWithL_ne_head {c d : Char} (h : (c == d) = false) (s p : Str) :
    startsWithL (c :: s) (d :: p) = false := by
  simp [startsWithL, h]

theorem bulletLine_head (r : Resource) : ∃ rest, bulletLine r = '-' :: rest := by
  unfold bulletLine
  split
  · exact ⟨_, rfl⟩
  · exact ⟨_, rfl⟩

theorem isSubLine_of_head {c : Char} (h : (c == '#') = false) (s : Str) :
    isSubLine (c :: s) = false :=
  startsWithL_ne_head h s (strOf "# Use Case: ")

theorem filter_opt_toList {α : Type} (o : Option α) (f : α → Str)
    (hf : ∀ d, isSubLine (f d) = false) :
    ((o.map f).toList).filter isSubLine = [] := by
  cases o with
  | none => rfl
  | some d =>
    show ([f d]).filter isSubLine = []
    rw [List.filter_cons, if_neg (by rw [hf d]; exact Bool.false_ne_true)]
    rfl

theorem filter_recordLines (r : Resource) :
    (recordLines r).filter isSubLine = [] := by
  unfold recordLines
  rw [List.filter_append, List.filter_append, List.filter_append, List.filter_append]
  have hb : isSubLine (bulletLine r) = false := by
    obtain ⟨rest, hbl⟩ := bulletLine_head r
    rw [hbl]
    exact isSubLine_of_head (by decide) rest
  have h1 : ([bulletLine r]).filter isSubLine = [] := by
    rw [List.filter_cons, if_neg (by rw [hb]; exact Bool.false_ne_true)]
    rfl
  have h2 := filter_opt_toList r.description (fun d => strOf "  - " ++ d)
    (fun d => isSubLine_of_head (by decide) (strOf " - " ++ d))
  have h3 := filter_opt_toList r.downloads
    (fun n => strOf "  - Downloads: " ++ strOf (toString n))
    (fun n => isSubLine_of_head (by decide) (strOf " - Downloads: " ++ strOf (toString n)))
  have h4 := filter_opt_toList r.stars
    (fun n => strOf "  - Stars: " ++ strOf (toString n))
    (fun n => isSubLine_of_head (by decide) (strOf " - Stars: " ++ strOf (toString n)))
  rw [h1, h2, h3, h4]
  rfl

theorem filter_flatten_recordLines (rs : List Resource) :
    ((rs.map recordLines).flatten).filter isSubLine = [] := by
  induction rs with
  | nil => rfl
  | cons r t ih =>
    simp only [List.map_cons, List.flatten_cons]
    rw [List.filter_append, filter_recordLines, ih]
    rfl

theorem filter_entryLines (e : Str × List Resource) :
    (entryLines e).filter isSubLine = [strOf "## Use Case: " ++ e.1] := by
  unfold entryLines
  rw [List.filter_append]
  have h1 : ([strOf "## Use Case: " ++ e.1, ([] : Str)]).filter isSubLine =
      [strOf "## Use Case: " ++ e.1] := by
    rw [List.filter_cons, if_pos (show isSubLine (strOf "## Use Case: " ++ e.1) = true from
      startsWithL_append_self (strOf "## Use Case: ") e.1)]
    rfl
  rw [h1]
  by_cases hg : placeholderGuard e.2 = true
  · rw [if_pos hg]
    rfl
  · rw [if_neg hg, filter_flatten_recordLines]
    rfl

theorem filter_flatten_entryLines (m : List (Str × List Resource)) :
    ((m.map entryLines).flatten).filter isSubLine =
      m.map (fun e => strOf "## Use Case: " ++ e.1) := by
  induction m with
  | nil => rfl
  | cons e t ih =>
    simp only [List.map_cons, List.flatten_cons]
    rw [List.filter_append, filter_entryLines, ih]
    rfl

theorem str_append_cancel {a b c : Str} (h : a ++ b = a ++ c) : b = c := by
  induction a with
  | nil => exact h
  | cons x xs ih =>
    rw [List.cons_append, List.cons_append] at h
    injection h with h1 h2
    exact ih h2

theorem filter_eq_subset (p q : Str → Bool) (himp : ∀ l, p l = true → q l = true) :
    ∀ ls : List Str, ls.filter p = (ls.filter q).filter p := by
  intro ls
  induction ls with
  | nil => rfl
  | cons a t ih =>
    by_cases hp : p a = true
    · rw [List.filter_cons, if_pos hp, List.filter_cons, if_pos (himp a hp),
        List.filter_cons, if_pos hp, ih]
    · by_cases hq : q a = true
      · rw [List.filter_cons, if_neg hp, List.filter_cons, if_pos hq,
          List.filter_cons, if_neg hp, ih]
      · rw [List.filter_cons, if_neg hp, List.filter_cons, if_neg hq, ih]

theorem filter_eq_shl_length (ks : List Str) (k : Str) (hk : k ∈ ks) (hnd : ks.Nodup) :
    ((ks.map (fun x => strOf "## Use Case: " ++ x)).filter
      (fun l => l == strOf "## Use Case: " ++ k)).length = 1 := by
  induction ks with
  | nil => cases hk
  | cons a t ih =>
    rw [List.map_cons, List.filter_cons]
    rcases List.mem_cons.mp hk with h | h
    · subst h
      rw [if_pos (by simp)]
      have hnotin : k ∉ t := (List.nodup_cons.mp hnd).1
      have hft : (t.map (fun x => strOf "## Use Case: " ++ x)).filter
          (fun l => l == strOf "## Use Case: " ++ k) = [] := by
        rw [List.filter_eq_nil_iff]
        intro l hl
        rw [List.mem_map] at hl
        obtain ⟨x, hx, hxl⟩ := hl
        subst hxl
        simp only [beq_iff_eq]
        intro hcon
        exact hnotin (str_append_cancel hcon ▸ hx)
      rw [hft]
      rfl
    · have hne : ¬a = k := fun hcc => (List.nodup_cons.mp hnd).1 (hcc ▸ h)
      rw [if_neg (by simp only [beq_iff_eq]; exact fun hcon => hne (str_append_cancel hcon))]
      exact ih h (List.nodup_cons.mp hnd).2

/-- C8: for every well-formed resource mapping — keys pairwise distinct
and single-line, records carrying the three mandatory fields with
single-line text fields, as the data model prescribes for use-case
labels and resource records — the formatter succeeds, its output starts
with the top-level heading, its lines decompose exactly into the
heading, then each entry's block in insertion order (sub-heading first,
then its bullets, with each record's description line directly under
that record's bullet, as `entryLines`/`recordLines` spell out), every
key appears as a sub-heading line, in insertion order, and each key's
sub-heading line occurs exactly once. -/
theorem formatter_structure (m : List (Str × List Resource))
    (hclean : ∀ e ∈ m, cleanEntry e)
    (hkeys : (m.map Prod.fst).Nodup) :
    ∃ out, format_resources_markdown m = .ok out ∧
      startsWithL out (strOf "# AI Implementation Resources\n\n") = true ∧
      splitLines out = [strOf "# AI Implementation Resources", []] ++
        (m.map entryLines).flatten ++ [[]] ∧
      (splitLines out).filter isSubLine =
        m.map (fun e => strOf "## Use Case: " ++ e.1) ∧
      ∀ k ∈ m.map Prod.fst,
        ((splitLines out).filter (fun l => l == strOf "## Use Case: " ++ k)).length = 1 := by
  have hcore : ∀ p ∈ m, ∀ r ∈ p.2, hasCore r := fun p hp r hr => ((hclean p hp).2 r hr).1
  have hout : format_resources_markdown m =
      .ok (unlines ([strOf "# AI Implementation Resources", []] ++
        (m.map entryLines).flatten)) := format_markdown_eq m hcore
  have hnl : ∀ l ∈ [strOf "# AI Implementation Resources", ([] : Str)] ++
      (m.map entryLines).flatten, noNL l := by
    intro l hl
    rcases List.mem_append.mp hl with hl | hl
    · rcases List.mem_cons.mp hl with hl | hl
      · subst hl
        decide
      · rw [List.mem_singleton] at hl
        subst hl
        decide
    · rw [List.mem_flatten] at hl
      obtain ⟨lns, hlns, hmem⟩ := hl
      rw [List.mem_map] at hlns
      obtain ⟨x, hx, hln⟩ := hlns
      subst hln
      exact noNL_entryLines x (hclean x hx) l hmem
  have hsplit : splitLines (unlines ([strOf "# AI Implementation Resources", []] ++
      (m.map entryLines).flatten)) =
      [strOf "# AI Implementation Resources", []] ++ (m.map entryLines).flatten ++ [[]] := by
    rw [splitLines_unlines _ hnl]
  have hfilter : (([strOf "# AI Implementation Resources", ([] : Str)] ++
      (m.map entryLines).flatten ++ [[]]).filter isSubLine) =
      m.map (fun e => strOf "## Use Case: " ++ e.1) := by
    rw [List.filter_append, List.filter_append, filter_flatten_entryLines]
    have hh : ([strOf "# AI Implementation Resources", ([] : Str)]).filter isSubLine = [] := by
      decide
    have ht : ([([] : Str)]).filter isSubLine = [] := by decide
    rw [hh, ht, List.nil_append, List.append_nil]
  refine ⟨_, hout, ?_, ?_, ?_, ?_⟩
  · have hsw : unlines ([strOf "# AI Implementation Resources", []] ++
        (m.map entryLines).flatten) =
        strOf "# AI Implementation Resources\n\n" ++
          unlines ((m.map entryLines).flatten) := by
      rw [unlines_append]
      rfl
    rw [hsw]
    exact startsWithL_append_self _ _
  · exact hsplit
  · rw [hsplit]
    exact hfilter
  · intro k hk
    rw [hsplit]
    have himp : ∀ l, (l == strOf "## Use Case: " ++ k) = true → isSubLine l = true := by
      intro l hl
      rw [beq_iff_eq] at hl
      subst hl
      exact startsWithL_append_self _ _
    rw [filter_eq_subset (fun l => l == strOf "## Use Case: " ++ k) isSubLine himp]
    rw [hfilter]
    have hres := filter_eq_shl_length (m.map Prod.fst) k hk hkeys
    rw [List.map_map] at hres
    exact hres

/-- C8 witness: a concrete two-entry mapping (a use-case key with the
sentinel record and a secondary-catalog key with a GitHub-shaped
record). -/
theorem formatter_structure_witness :
    ∃ out, format_resources_markdown
        [(strOf "Fraud detection", [noDatasetSentinel]),
         (strOf "GitHub Repositories",
          [{ title := some (strOf "fraud-models"), url := some (strOf "https://github.com/x/y"),
             source := some (strOf "GitHub"), description := some (strOf "Models"),
             downloads := none, stars := some 7, likes := none, ref := none,
             language := some (strOf "Python") }])] = .ok out ∧
      startsWithL out (strOf "# AI Implementation Resources\n\n") = true ∧
      splitLines out = [strOf "# AI Implementation Resources", []] ++
        ([(strOf "Fraud detection", [noDatasetSentinel]),
          (strOf "GitHub Repositories",
           [{ title := some (strOf "fraud-models"), url := some (strOf "https://github.com/x/y"),
              source := some (strOf "GitHub"), description := some (strOf "Models"),
              downloads := none, stars := some 7, likes := none, ref := none,
              language := some (strOf "Python") }])].map entryLines).flatten ++ [[]] ∧
      (splitLines out).filter isSubLine =
        [(strOf "Fraud detection", [noDatasetSentinel]),
         (strOf "GitHub Repositories",
          [{ title := some (strOf "fraud-models"), url := some (strOf "https://github.com/x/y"),
             source := some (strOf "GitHub"), description := some (strOf "Models"),
             downloads := none, stars := some 7, likes := none, ref := none,
             language := some (strOf "Python") }])].map
          (fun e => strOf "## Use Case: " ++ e.1) ∧
      ∀ k ∈ [(strOf "Fraud detection", [noDatasetSentinel]),
         (strOf "GitHub Repositories",
          [{ title := some (strOf "fraud-models"), url := some (strOf "https://github.com/x/y"),
             source := some (strOf "GitHub"), description := some (strOf "Models"),
             downloads := none, stars := some 7, likes := none, ref := none,
             language := some (strOf "Python") }])].map Prod.fst,
        ((splitLines out).filter (fun l => l == strOf "## Use Case: " ++ k)).length = 1 :=
  formatter_structure _ (by decide) (by decide)

/-- C10 witness: a concrete fallback record has the three mandatory
fields, and the all-services-down aggregation formats successfully. -/
theorem aggregated_records_formattable_witness :
    hasCore (mkResource (strOf "q" ++ strOf " Dataset 1")
      (strOf "https://www.kaggle.com/datasets/example1")
      (strOf "Kaggle (Fallback)")
      (strOf "Example dataset for " ++ strOf "q" ++
        strOf " - use real Kaggle API for actual results")) ∧
    ∃ out, format_resources_markdown
      (aggregateResources envAllFail (strOf "u") (strOf "Tesla")) = .ok out :=
  ⟨(aggregated_records_formattable envAllFail (strOf "u") (strOf "Tesla")).1
      (strOf "q") 2 _ (by decide),
   (aggregated_records_formattable envAllFail (strOf "u") (strOf "Tesla")).2.2.2.2.2.2.2⟩
